import Mathlib

/-!
Verification of the Progmy combat core: shallow embedding of the
StatusEffectSystem, ScoreSystem, Fighter entity and AIController decision
engine, with theorems checking the specification's claims against the code.

Modelling conventions:
* JavaScript numbers are embedded as `ℚ`; timestamps (`Date.now()`, the
  `time` argument of `onAttack`) as `ℤ` milliseconds.
* `Math.random()` draws are explicit oracle parameters (a rational in
  `[0,1)`, or a list of such rationals threaded through a computation);
  random index choices are natural-number parameters reduced modulo the
  relevant list length.
* JS `Map` objects keyed by live `Fighter` references are embedded as
  functions `ℕ → Option _` from fighter identifiers.
* Fire-and-forget timers (`scene.time.delayedCall`) are modelled by storing
  the scheduled duration in the state (e.g. `hitstunDuration`), as the spec
  itself prescribes for deferred effects.
* Purely visual fields (`knockbackIntensity`, `knockbackAngle`, animation
  state, graphics) are not modelled; no claim mentions them.
-/

namespace Progmy

/-! ## Character data (src/game/systems/StatusEffectSystem.ts) -/

/-- Character identifiers appearing in the `MEMORY_MANAGEMENT` / `ROBUSTNESS`
tables; `other` stands for any id absent from the tables (the code falls back
to `0.5` via `|| 0.5`). -/
inductive CharId where
  | c | cpp | rust | go | java | csharp | python | javascript | typescript
  | haskell | swift | kotlin | ruby | php | lua | assembly | other
deriving DecidableEq

/-- The `MEMORY_MANAGEMENT` table (with the `|| 0.5` fallback folded in). -/
def memoryManagement : CharId → ℚ
  | .c => 3/10
  | .cpp => 35/100
  | .rust => 9/10
  | .go => 7/10
  | .java => 8/10
  | .csharp => 75/100
  | .python => 65/100
  | .javascript => 6/10
  | .typescript => 65/100
  | .haskell => 85/100
  | .swift => 7/10
  | .kotlin => 7/10
  | .ruby => 55/100
  | .php => 4/10
  | .lua => 5/10
  | .assembly => 2/10
  | .other => 1/2

/-- The `ROBUSTNESS` table (with the `|| 0.5` fallback folded in). -/
def robustness : CharId → ℚ
  | .c => 3/10
  | .cpp => 4/10
  | .rust => 95/100
  | .go => 7/10
  | .java => 65/100
  | .csharp => 6/10
  | .python => 1/2
  | .javascript => 35/100
  | .typescript => 55/100
  | .haskell => 9/10
  | .swift => 65/100
  | .kotlin => 65/100
  | .ruby => 45/100
  | .php => 3/10
  | .lua => 1/2
  | .assembly => 25/100
  | .other => 1/2

/-! ## StatusEffectSystem data model -/

/-- The `BugEffect` enumeration. -/
inductive BugEffect where
  | reversedControls | noJump | randomAttack | slowMovement | visualGlitch
deriving DecidableEq

/-- `Object.values(BugEffect)` in declaration order. -/
def allBugEffects : List BugEffect :=
  [.reversedControls, .noJump, .randomAttack, .slowMovement, .visualGlitch]

/-- The `StatusEffect` enumeration (used by the `activeEffects` list). -/
inductive StatusEffect where
  | noneEffect | bug | stackOverflow | invincible | shield | boost
deriving DecidableEq

/-- `StatusState`: one entry of `activeEffects`. -/
structure StatusState where
  effect : StatusEffect
  duration : ℚ
  severity : ℚ
deriving DecidableEq

/-- `StackOverflowState` of a registered fighter. -/
structure StackOverflowState where
  attackCounter : ℕ
  windowStart : ℤ
  threshold : ℕ
  stunDuration : ℚ
  isStunned : Bool
  stunTimer : ℚ
deriving DecidableEq

/-- `BugState` of a registered fighter. -/
structure BugState where
  isActive : Bool
  duration : ℚ
  effects : List BugEffect
  probability : ℚ
deriving DecidableEq

/-- The per-fighter record stored in `StatusEffectSystem.fighterStates`. -/
structure FighterStatus where
  stackOverflow : StackOverflowState
  bug : BugState
  activeEffects : List StatusState
deriving DecidableEq

def ATTACK_WINDOW : ℤ := 5000
def BASE_SO_THRESHOLD : ℚ := 15
def SO_STUN_DURATION : ℚ := 2000
def BUG_BASE_CHANCE : ℚ := 1/100
def BUG_DURATION : ℚ := 3000

/-- `StatusEffectSystem.registerFighter`: the initial per-fighter record. -/
def initialStatus (characterId : CharId) : FighterStatus :=
  { stackOverflow :=
      { attackCounter := 0
        windowStart := 0
        threshold := (⌊BASE_SO_THRESHOLD * (1 + memoryManagement characterId)⌋).toNat
        stunDuration := SO_STUN_DURATION
        isStunned := false
        stunTimer := 0 }
    bug :=
      { isActive := false
        duration := 0
        effects := []
        probability := BUG_BASE_CHANCE * (2 - robustness characterId) }
    activeEffects := [] }

/-! ## StatusEffectSystem operations -/

/-- The stack-overflow part of `StatusEffectSystem.onAttack` (the per-fighter
state transition together with the returned boolean). Mirrors lines 123-147
combined with `triggerStackOverflow` (lines 172-181). -/
def soOnAttack (s : StackOverflowState) (time : ℤ) : Bool × StackOverflowState :=
  if s.isStunned then (false, s)
  else
    let s1 := if time - s.windowStart > ATTACK_WINDOW then
        { s with attackCounter := 0, windowStart := time }
      else s
    let s2 := { s1 with attackCounter := s1.attackCounter + 1 }
    if s2.threshold ≤ s2.attackCounter then
      (false, { s2 with isStunned := true, stunTimer := s2.stunDuration, attackCounter := 0 })
    else
      (true, s2)

/-- A sequence of `onAttack` calls at the given times, collecting the returned
booleans and the final stack-overflow state. -/
def soRun (s : StackOverflowState) : List ℤ → List Bool × StackOverflowState
  | [] => ([], s)
  | t :: ts =>
    let r := soOnAttack s t
    let rest := soRun r.2 ts
    (r.1 :: rest.1, rest.2)

/-- `getRandomBugEffect(existing)` with the `Math.floor(Math.random()*len)`
draw supplied as an index `i` (reduced modulo the number of still-available
effects). -/
def getRandomBugEffect (existing : List BugEffect) (i : ℕ) : Option BugEffect :=
  let available := allBugEffects.filter (fun e => decide (e ∉ existing))
  available.get? (i % available.length)

/-- `triggerBug`: activate the bug state with a fresh singleton effect list.
The source asserts non-nullness (`!`); here the `Option` is eliminated with a
default that is provably never used (`getRandomBugEffect [] i` is always
`some`). -/
def triggerBug (i : ℕ) (b : BugState) : BugState :=
  { b with isActive := true
           duration := BUG_DURATION
           effects := ((getRandomBugEffect [] i).map (fun e => [e])).getD [] }

/-- The already-bugged branch of `StatusEffectSystem.onTakeDamage`
(lines 159-169): extend the duration by 500 and, when below the cap of 3 and
the `r2` roll succeeds, append one non-duplicate random effect. -/
def bugExtend (r2 : ℚ) (i2 : ℕ) (b : BugState) : BugState :=
  let b2 := { b with duration := b.duration + 500 }
  if b2.effects.length < 3 ∧ r2 < 3/10 then
    match getRandomBugEffect b2.effects i2 with
    | some e => { b2 with effects := b2.effects ++ [e] }
    | none => b2
  else b2

/-- `StatusEffectSystem.onTakeDamage` restricted to the bug state it mutates.
`r1` is the trigger roll, `r2` the extra-effect roll, `i1`/`i2` the random
effect choices. Note that when `triggerBug` fires, the `isActive` check that
follows in the same call sees the freshly activated state, so the duration is
extended by 500 immediately. -/
def bugOnTakeDamage (r1 r2 : ℚ) (i1 i2 : ℕ) (b : BugState) : BugState :=
  let b1 := if r1 < b.probability then triggerBug i1 b else b
  if b1.isActive then bugExtend r2 i2 b1 else b1

/-- `StatusEffectSystem.update(fighter, delta)` on the per-fighter record. -/
def statusUpdate (delta : ℚ) (st : FighterStatus) : FighterStatus :=
  let so := st.stackOverflow
  let so' := if so.isStunned then
      let timer := so.stunTimer - delta
      if timer ≤ 0 then { so with stunTimer := timer, isStunned := false }
      else { so with stunTimer := timer }
    else so
  let b := st.bug
  let b' := if b.isActive then
      let d := b.duration - delta
      if d ≤ 0 then { b with duration := d, isActive := false, effects := [] }
      else { b with duration := d }
    else b
  let ae := (st.activeEffects.map (fun e => { e with duration := e.duration - delta })).filter
      (fun e => decide (0 < e.duration))
  { stackOverflow := so', bug := b', activeEffects := ae }

/-- `StatusEffectSystem.clearEffects` on the per-fighter record. -/
def clearEffects (st : FighterStatus) : FighterStatus :=
  { activeEffects := []
    bug := { st.bug with isActive := false, effects := [] }
    stackOverflow := { st.stackOverflow with isStunned := false, attackCounter := 0 } }

/-- One `StatusEffectSystem` operation on a registered fighter's record, with
its random draws made explicit. -/
inductive StatusOp where
  | takeDamage (r1 r2 : ℚ) (i1 i2 : ℕ)
  | update (delta : ℚ)
  | clear

def applyStatusOp (op : StatusOp) (st : FighterStatus) : FighterStatus :=
  match op with
  | .takeDamage r1 r2 i1 i2 => { st with bug := bugOnTakeDamage r1 r2 i1 i2 st.bug }
  | .update delta => statusUpdate delta st
  | .clear => clearEffects st

def applyStatusOps (ops : List StatusOp) (st : FighterStatus) : FighterStatus :=
  ops.foldl (fun s op => applyStatusOp op s) st

/-- The bug-state invariant claimed by the spec. -/
def bugInv (b : BugState) : Prop :=
  (b.effects = [] ↔ b.isActive = false) ∧ b.effects.length ≤ 3 ∧ b.effects.Nodup

/-! ## The system-level maps (for unregistered-fighter behaviour) -/

/-- `StatusEffectSystem`: the `fighterStates` map, keyed by fighter id. -/
structure StatusSystem where
  fighterStates : ℕ → Option FighterStatus

/-- System-level `onAttack`: returns `true` untouched for an unregistered
fighter (line 125), otherwise runs the stack-overflow transition. -/
def sysOnAttack (sys : StatusSystem) (f : ℕ) (time : ℤ) : Bool × StatusSystem :=
  match sys.fighterStates f with
  | none => (true, sys)
  | some st =>
    let r := soOnAttack st.stackOverflow time
    (r.1, ⟨fun n => if n = f then some { st with stackOverflow := r.2 } else sys.fighterStates n⟩)

/-- `StatusEffectSystem.isStunned` (`state?.stackOverflow.isStunned || false`). -/
def sysIsStunned (sys : StatusSystem) (f : ℕ) : Bool :=
  match sys.fighterStates f with
  | none => false
  | some st => st.stackOverflow.isStunned

/-- `StatusEffectSystem.isBugged`. -/
def sysIsBugged (sys : StatusSystem) (f : ℕ) : Bool :=
  match sys.fighterStates f with
  | none => false
  | some st => st.bug.isActive

/-- `StatusEffectSystem.getBugEffects`. -/
def sysGetBugEffects (sys : StatusSystem) (f : ℕ) : List BugEffect :=
  match sys.fighterStates f with
  | none => []
  | some st => st.bug.effects

/-- `StatusEffectSystem.getStackOverflowProgress`. -/
def sysGetStackOverflowProgress (sys : StatusSystem) (f : ℕ) : ℚ :=
  match sys.fighterStates f with
  | none => 0
  | some st => (st.stackOverflow.attackCounter : ℚ) / (st.stackOverflow.threshold : ℚ)

/-- A `StatusEffectSystem` with no registered fighters. -/
def emptyStatusSystem : StatusSystem := ⟨fun _ => none⟩

/-! ## ScoreSystem (src/game/systems/ScoreSystem.ts) -/

/-- `ScoreBreakdown`. -/
structure ScoreBreakdown where
  push : ℚ
  stage : ℚ
  commit : ℚ
  bonus : ℚ
deriving DecidableEq

/-- `DamageRecord` (attacker by fighter id). -/
structure DamageRecord where
  attacker : ℕ
  amount : ℚ
  timestamp : ℤ
deriving DecidableEq

/-- The `ScoreSystem` state: the `scores` and `damageHistory` maps. -/
structure ScoreSystem where
  scores : ℕ → Option ScoreBreakdown
  damageHistory : ℕ → Option (List DamageRecord)

def PUSH_POINTS : ℚ := 100
def STAGE_MULTIPLIER : ℚ := 1/2
def COMMIT_MULTIPLIER : ℚ := 3/10
def COMBO_BONUS : ℚ := 10
def DAMAGE_EXPIRE_TIME : ℤ := 15000

/-- `Map.set` on the `scores` map. -/
def setScore (m : ℕ → Option ScoreBreakdown) (k : ℕ) (v : ScoreBreakdown) :
    ℕ → Option ScoreBreakdown :=
  fun n => if n = k then some v else m n

/-- `Map.set` on the `damageHistory` map. -/
def setHistory (m : ℕ → Option (List DamageRecord)) (k : ℕ) (v : List DamageRecord) :
    ℕ → Option (List DamageRecord) :=
  fun n => if n = k then some v else m n

/-- `ScoreSystem.registerFighter`. -/
def registerScore (f : ℕ) (sys : ScoreSystem) : ScoreSystem :=
  { scores := setScore sys.scores f ⟨0, 0, 0, 0⟩
    damageHistory := setHistory sys.damageHistory f [] }

/-- `ScoreSystem.cleanExpiredRecords`. -/
def cleanExpiredRecords (victim : ℕ) (now : ℤ) (sys : ScoreSystem) : ScoreSystem :=
  let history := (sys.damageHistory victim).getD []
  let filtered := history.filter (fun r => decide (now - r.timestamp < DAMAGE_EXPIRE_TIME))
  { sys with damageHistory := setHistory sys.damageHistory victim filtered }

/-- `ScoreSystem.recordDamage(attacker, victim, amount)`, with `Date.now()`
supplied as `now`. -/
def recordDamage (attacker victim : ℕ) (amount : ℚ) (now : ℤ) (sys : ScoreSystem) :
    ScoreSystem :=
  let sys1 := match sys.scores attacker with
    | some sc =>
      { sys with scores :=
          setScore sys.scores attacker { sc with stage := sc.stage + amount * STAGE_MULTIPLIER } }
    | none => sys
  let victimHistory := (sys1.damageHistory victim).getD []
  let hist2 := setHistory sys1.damageHistory victim (victimHistory ++ [⟨attacker, amount, now⟩])
  let sys2 := { sys1 with damageHistory := hist2 }
  cleanExpiredRecords victim now sys2

/-- JS `Set` built by insertion (first occurrence wins, order preserved). -/
def insertUnique (l : List ℕ) (a : ℕ) : List ℕ :=
  if a ∈ l then l else l ++ [a]

/-- The commit contribution of damager `d` in `recordKO`: the sum of `d`'s
unexpired damage amounts against the victim. -/
def koContribution (history : List DamageRecord) (now : ℤ) (d : ℕ) : ℚ :=
  ((history.filter (fun r =>
      decide (r.attacker = d) && decide (now - r.timestamp < DAMAGE_EXPIRE_TIME))).map
    (fun r => r.amount)).sum

/-- The `recentDamagers` set of `recordKO` (attackers of unexpired records,
killer excluded), in JS `Set` insertion order. -/
def koDamagers (history : List DamageRecord) (now : ℤ) (killer : Option ℕ) : List ℕ :=
  (history.filter (fun r =>
      decide (now - r.timestamp < DAMAGE_EXPIRE_TIME) && decide (some r.attacker ≠ killer))).foldl
    (fun acc r => insertUnique acc r.attacker) []

/-- One iteration of the commit-awarding loop in `recordKO`. -/
def koStep (history : List DamageRecord) (now : ℤ) (m : ℕ → Option ScoreBreakdown) (d : ℕ) :
    ℕ → Option ScoreBreakdown :=
  match m d with
  | some sc =>
    setScore m d { sc with commit := sc.commit + koContribution history now d * COMMIT_MULTIPLIER }
  | none => m

/-- `ScoreSystem.recordKO(victim, killer)`, with `Date.now()` supplied as
`now`. -/
def recordKO (victim : ℕ) (killer : Option ℕ) (now : ℤ) (sys : ScoreSystem) : ScoreSystem :=
  let sys1 := match killer with
    | some k =>
      match sys.scores k with
      | some sc =>
        { sys with scores := setScore sys.scores k { sc with push := sc.push + PUSH_POINTS } }
      | none => sys
    | none => sys
  let history := (sys1.damageHistory victim).getD []
  let scores' := (koDamagers history now killer).foldl (koStep history now) sys1.scores
  { scores := scores', damageHistory := setHistory sys1.damageHistory victim [] }

/-- `ScoreSystem.addComboBonus(fighter, comboCount)`. -/
def addComboBonus (f : ℕ) (comboCount : ℚ) (sys : ScoreSystem) : ScoreSystem :=
  match sys.scores f with
  | some sc =>
    { sys with scores := setScore sys.scores f { sc with bonus := sc.bonus + COMBO_BONUS * comboCount } }
  | none => sys

/-- `ScoreSystem.getTotalScore`. -/
def getTotalScore (f : ℕ) (sys : ScoreSystem) : ℤ :=
  match sys.scores f with
  | none => 0
  | some sc => ⌊sc.push + sc.stage * (3/10) + sc.commit * (1/5) + sc.bonus⌋

/-- `ScoreSystem.getScoreBreakdown`. -/
def getScoreBreakdown (f : ℕ) (sys : ScoreSystem) : ScoreBreakdown :=
  (sys.scores f).getD ⟨0, 0, 0, 0⟩

/-- A `ScoreSystem` with no registered fighters. -/
def emptyScoreSystem : ScoreSystem := ⟨fun _ => none, fun _ => none⟩

/-- One `ScoreSystem` operation, timestamps explicit. -/
inductive ScoreOp where
  | damage (attacker victim : ℕ) (amount : ℚ) (now : ℤ)
  | ko (victim : ℕ) (killer : Option ℕ) (now : ℤ)
  | combo (f : ℕ) (count : ℚ)

def applyScoreOp (op : ScoreOp) (sys : ScoreSystem) : ScoreSystem :=
  match op with
  | .damage a v amount now => recordDamage a v amount now sys
  | .ko v k now => recordKO v k now sys
  | .combo f c => addComboBonus f c sys

def applyScoreOps (ops : List ScoreOp) (sys : ScoreSystem) : ScoreSystem :=
  ops.foldl (fun s op => applyScoreOp op s) sys

/-- Non-negativity of an operation's arguments (the hypothesis of the
monotonicity claim). -/
def scoreOpNonneg : ScoreOp → Prop
  | .damage _ _ amount _ => 0 ≤ amount
  | .ko _ _ _ => True
  | .combo _ c => 0 ≤ c

/-- All amounts stored in the damage ledgers are non-negative. -/
def historyNonneg (sys : ScoreSystem) : Prop :=
  ∀ v r, r ∈ (sys.damageHistory v).getD [] → 0 ≤ r.amount

/-! ## Fighter entity (src/entities/Fighter.ts) -/

/-- `AttackType`. -/
inductive AttackType where
  | light | medium | heavy
deriving DecidableEq

/-- The Fighter fields relevant to combat state (visual-only fields such as
`knockbackIntensity`/`knockbackAngle` and the graphics objects are omitted;
no claim mentions them). `hitstunDuration` / `attackDuration` record the
durations the source passes to `scene.time.delayedCall`, per the spec's
countdown-field model of deferred effects. -/
structure Fighter where
  x : ℚ
  y : ℚ
  velX : ℚ
  velY : ℚ
  damage : ℚ
  stocks : ℕ
  facingRight : Bool
  isGrounded : Bool
  isAttacking : Bool
  isUsingSpecial : Bool
  isHitstun : Bool
  isInvincible : Bool
  jumpsRemaining : ℕ
  currentAttackType : AttackType
  specialCooldown : ℚ
  attackCooldown : ℚ
  subAbilityCooldown : ℚ
  hitTargets : List ℕ
  activeBugEffects : List BugEffect
  skillDelayMultiplier : ℚ
  hitstunDuration : ℚ
  attackDuration : ℚ
deriving DecidableEq

/-- `Fighter.takeDamage(amount, knockbackX, knockbackY)` (lines 695-729 of the
Fighter entity): no-op while invincible; otherwise adds to the damage
accumulator, sets hitstun, applies damage-scaled knockback to the velocity,
and schedules hitstun release after `min(100 + damage*2, 500)`. -/
def Fighter.takeDamage (f : Fighter) (amount knockbackX knockbackY : ℚ) : Fighter :=
  if f.isInvincible then f
  else
    let d := f.damage + amount
    let knockbackMultiplier := 1 + d / 100
    { f with damage := d
             isHitstun := true
             velX := knockbackX * knockbackMultiplier
             velY := knockbackY * knockbackMultiplier
             hitstunDuration := min (100 + d * 2) 500 }

def attackCooldownOf : AttackType → ℚ
  | .light => 200
  | .medium => 400
  | .heavy => 600

def attackDurationOf : AttackType → ℚ
  | .light => 150
  | .medium => 250
  | .heavy => 400

/-- `Fighter.attack(type)` (lines 625-644): silently does nothing while in
hitstun or while the attack cooldown is positive. -/
def Fighter.attack (f : Fighter) (ty : AttackType) : Fighter :=
  if f.isHitstun ∨ f.attackCooldown > 0 then f
  else
    { f with isAttacking := true
             currentAttackType := ty
             hitTargets := []
             attackCooldown := attackCooldownOf ty * f.skillDelayMultiplier
             attackDuration := attackDurationOf ty }

/-- `Fighter.respawn(x, y)` (lines 732-743). -/
def Fighter.respawn (f : Fighter) (x y : ℚ) : Fighter :=
  { f with x := x
           y := y
           velX := 0
           velY := 0
           damage := 0
           isHitstun := false
           isAttacking := false
           isUsingSpecial := false
           hitTargets := []
           activeBugEffects := [] }

/-! ## AIController decision engine (src/entities/AIController.ts) -/

/-- The AI behavior enumeration (`AIState.currentAction`). -/
inductive AIAction where
  | idle | chase | attackAction | defend | retreat | special | recover | edgeguard
deriving DecidableEq

/-- The `AISkill` vector. -/
structure AISkill where
  reactionSpeed : ℚ
  movementPrecision : ℚ
  spacingSkill : ℚ
  comboAbility : ℚ
  dodgeSkill : ℚ
  edgeguardSkill : ℚ
  recoverySkill : ℚ
  inputAccuracy : ℚ
  adaptationRate : ℚ
deriving DecidableEq

/-- The `AIPersonality` vector. -/
structure AIPersonality where
  aggression : ℚ
  specialUsage : ℚ
deriving DecidableEq

/-- What the decision tree reads about the current target. -/
structure TargetInfo where
  isAttacking : Bool
  x : ℚ
  velY : ℚ
  damage : ℚ
deriving DecidableEq

/-- One `Math.random()` draw from an oracle stream (empty stream defaults
to 0, harmless since every theorem quantifies over or exhibits the stream). -/
def drawRand (rs : List ℚ) : ℚ × List ℚ := (rs.headD 0, rs.tail)

/-- `AIController.shouldDodge` (lines 321-330): the target must be mid-attack
and within distance 120, then a roll against `dodgeSkill` decides. Returns the
remaining oracle stream. -/
def shouldDodge (sk : AISkill) (tgt : TargetInfo) (dist : ℚ) (rs : List ℚ) :
    Bool × List ℚ :=
  if tgt.isAttacking = false then (false, rs)
  else if dist > 120 then (false, rs)
  else
    let r := drawRand rs
    (decide (r.1 < sk.dodgeSkill), r.2)

/-- `AIController.shouldEdgeguard` (no randomness). -/
def shouldEdgeguard (tgt : TargetInfo) (selfGrounded : Bool) : Bool :=
  let isOffstage := decide (tgt.x < 100 + 50) || decide (tgt.x > 1180 - 50)
  let isFalling := decide (tgt.velY > 100)
  isOffstage && isFalling && selfGrounded

/-- `AIController.shouldUseSpecial` (lines 693-716). `specialUtility` is
whether the character's special move has type `'utility'`. -/
def shouldUseSpecial (p : AIPersonality) (specialCooldown specialRange : ℚ)
    (specialUtility : Bool) (tgt : TargetInfo) (dist : ℚ) (rs : List ℚ) :
    Bool × List ℚ :=
  if specialCooldown > 0 then (false, rs)
  else if dist > specialRange then (false, rs)
  else
    let r := drawRand rs
    if tgt.damage > 80 ∧ r.1 < p.specialUsage * (3/2) then (true, r.2)
    else if specialUtility then (decide (r.1 < p.specialUsage * (4/5)), r.2)
    else (decide (r.1 < p.specialUsage * (3/10)), r.2)

/-- The pattern-adaptation override at the end of `makeDecision`
(lines 313-318). -/
def adaptOverride (sk : AISkill) (tgt : TargetInfo) (act : AIAction) (rs : List ℚ) :
    AIAction :=
  if sk.adaptationRate > 2/5 ∧ tgt.isAttacking = true then
    let r := drawRand rs
    if r.1 < sk.dodgeSkill then AIAction.defend else act
  else act

/-- `AIController.makeDecision` (lines 242-319) after a target has been found:
the behavior selected for this decision tick. `dist` is the Euclidean distance
`getDistanceTo(target)` (computed by Phaser; carried here as an input).
`Math.random()` draws are consumed from `rs` in source order. -/
def decideAction (sk : AISkill) (p : AIPersonality) (myDamage : ℚ)
    (specialCooldown specialRange : ℚ) (specialUtility selfGrounded : Bool)
    (tgt : TargetInfo) (dist : ℚ) (rs : List ℚ) : AIAction :=
  let roll := drawRand rs
  let dodge := shouldDodge sk tgt dist roll.2
  if dodge.1 then AIAction.defend
  else if sk.edgeguardSkill > 3/10 ∧ shouldEdgeguard tgt selfGrounded then AIAction.edgeguard
  else
    let sp := shouldUseSpecial p specialCooldown specialRange specialUtility tgt dist dodge.2
    if sp.1 then AIAction.special
    else
      let optimalDistance := 40 + (1 - sk.spacingSkill) * 40
      if dist < optimalDistance + 30 then
        if roll.1 < p.aggression then
          let ra := drawRand sp.2
          let rest := if ra.1 < sk.comboAbility then (drawRand ra.2).2 else ra.2
          adaptOverride sk tgt AIAction.attackAction rest
        else if myDamage > 80 ∧ roll.1 < 1/2 then
          adaptOverride sk tgt AIAction.retreat sp.2
        else
          adaptOverride sk tgt AIAction.defend sp.2
      else if dist < 200 then
        if sk.spacingSkill > 1/2 ∧ |dist - optimalDistance| < 30 then
          adaptOverride sk tgt AIAction.idle sp.2
        else if roll.1 < p.aggression * (4/5) then
          adaptOverride sk tgt AIAction.chase sp.2
        else
          adaptOverride sk tgt AIAction.idle sp.2
      else
        adaptOverride sk tgt AIAction.chase sp.2

/-- Validity of an oracle stream: every draw is in `[0, 1)`, the codomain of
`Math.random()`. -/
def validRand (rs : List ℚ) : Prop := ∀ r ∈ rs, 0 ≤ r ∧ r < 1

/-! ## Theorems -/

/-- C2: `StatusEffectSystem.onAttack` (per-fighter transition): while the stun
flag is set the call returns `false` and changes nothing; when not stunned,
letting `c` be the attack count for this call after the window-expiry reset
(`c = 1` if the window expired, else the old counter plus one), the call
returns `false` and engages the stun flag exactly when `c` reaches the
threshold, the counter is reset to `0` on a threshold breach, and on window
expiry the call behaves exactly as if the counter had been reset to zero and
the window restarted at the call time. -/
theorem onAttack_rate_limit_spec (s : StackOverflowState) (t : ℤ) :
    (s.isStunned = true → soOnAttack s t = (false, s)) ∧
    (s.isStunned = false →
      ((soOnAttack s t).1 = false ↔
          s.threshold ≤ (if t - s.windowStart > ATTACK_WINDOW then 0 else s.attackCounter) + 1) ∧
      ((soOnAttack s t).2.isStunned = true ↔
          s.threshold ≤ (if t - s.windowStart > ATTACK_WINDOW then 0 else s.attackCounter) + 1) ∧
      (s.threshold ≤ (if t - s.windowStart > ATTACK_WINDOW then 0 else s.attackCounter) + 1 →
          (soOnAttack s t).2.attackCounter = 0) ∧
      (t - s.windowStart > ATTACK_WINDOW →
          soOnAttack s t = soOnAttack { s with attackCounter := 0, windowStart := t } t)) := by
  have hself : ¬ (t - t > ATTACK_WINDOW) := by
    simp [ATTACK_WINDOW]
  constructor
  · intro h
    simp [soOnAttack, h]
  · intro h
    by_cases hw : t - s.windowStart > ATTACK_WINDOW
    · by_cases hth : s.threshold ≤ 0 + 1
      · simp [soOnAttack, h, hw, hth, hself]
      · simp [soOnAttack, h, hw, hth, hself]
    · by_cases hth : s.threshold ≤ s.attackCounter + 1
      · simp [soOnAttack, h, hw, hth]
      · simp [soOnAttack, h, hw, hth]

/-- Witness for C2 at a concrete stunned state. -/
theorem onAttack_rate_limit_spec_witness :
    soOnAttack ⟨3, 0, 28, 2000, true, 100⟩ 0 = (false, ⟨3, 0, 28, 2000, true, 100⟩) :=
  (onAttack_rate_limit_spec ⟨3, 0, 28, 2000, true, 100⟩ 0).1 rfl

/-- Helper for C3: a run of `onAttack` calls that stays strictly below the
threshold and never lets the window expire returns `true` every time and just
accumulates the counter. -/
theorem soRun_below_threshold (ts : List ℤ) : ∀ s : StackOverflowState,
    s.isStunned = false →
    (∀ t ∈ ts, t - s.windowStart ≤ ATTACK_WINDOW) →
    s.attackCounter + ts.length < s.threshold →
    soRun s ts =
      (List.replicate ts.length true, { s with attackCounter := s.attackCounter + ts.length }) := by
  induction ts with
  | nil => intro s _ _ _; simp [soRun]
  | cons t ts ih =>
    intro s hs hw hc
    have hw1 : ¬ (t - s.windowStart > ATTACK_WINDOW) :=
      not_lt.mpr (hw t (List.mem_cons_self t ts))
    have hth : ¬ (s.threshold ≤ s.attackCounter + 1) := by
      simp only [List.length_cons] at hc
      omega
    have hstep : soOnAttack s t = (true, { s with attackCounter := s.attackCounter + 1 }) := by
      simp [soOnAttack, hs, hw1, hth]
    have hrest := ih { s with attackCounter := s.attackCounter + 1 }
      (by simpa using hs)
      (by intro u hu; simpa using hw u (List.mem_cons_of_mem t hu))
      (by simp only [List.length_cons] at hc; simpa using by omega)
    simp only [soRun, hstep, hrest, List.length_cons, List.replicate_succ, Prod.mk.injEq,
      StackOverflowState.mk.injEq, true_and, and_true]
    omega

/-- Helper: `soRun` splits over list append. -/
theorem soRun_append (ts ts' : List ℤ) : ∀ s : StackOverflowState,
    soRun s (ts ++ ts') =
      ((soRun s ts).1 ++ (soRun (soRun s ts).2 ts').1, (soRun (soRun s ts).2 ts').2) := by
  induction ts with
  | nil => intro s; simp [soRun]
  | cons t ts ih => intro s; simp [soRun, ih]

/-- C3: a registered fighter whose character has memory-management rating 0.9
gets effective stack-overflow threshold `floor(15 × 1.9) = 28`, and 28
consecutive `onAttack` calls within one window from the initial state return
`true` for the first 27 and `false` on the 28th, which engages the stun
flag. -/
theorem so_threshold_scenario (cid : CharId) (ts : List ℤ) (tl : ℤ)
    (hmem : memoryManagement cid = 9/10)
    (hlen : ts.length = 27)
    (hts : ∀ t ∈ ts, t ≤ ATTACK_WINDOW)
    (htl : tl ≤ ATTACK_WINDOW) :
    (initialStatus cid).stackOverflow.threshold = 28 ∧
    (soRun (initialStatus cid).stackOverflow (ts ++ [tl])).1 =
      List.replicate 27 true ++ [false] ∧
    (soRun (initialStatus cid).stackOverflow (ts ++ [tl])).2.isStunned = true := by
  have hth : (initialStatus cid).stackOverflow.threshold = 28 := by
    simp only [initialStatus, hmem, BASE_SO_THRESHOLD]
    norm_num
    rfl
  have hs0 : (initialStatus cid).stackOverflow = ⟨0, 0, 28, 2000, false, 0⟩ := by
    simp only [initialStatus] at hth ⊢
    simp [StackOverflowState.mk.injEq, SO_STUN_DURATION]
    exact hth
  rw [hs0]
  have hrun := soRun_below_threshold ts ⟨0, 0, 28, 2000, false, 0⟩ rfl
    (by intro u hu; simpa using hts u hu)
    (by rw [hlen]; norm_num)
  rw [hlen] at hrun
  have hnw : ¬ (ATTACK_WINDOW < tl) := not_lt.mpr htl
  rw [soRun_append, hrun]
  refine ⟨rfl, ?_, ?_⟩ <;> simp [soRun, soOnAttack, hnw]

/-- Witness for C3: the `rust` character, all 28 calls at time 0. -/
theorem so_threshold_scenario_witness :
    (initialStatus CharId.rust).stackOverflow.threshold = 28 ∧
    (soRun (initialStatus CharId.rust).stackOverflow (List.replicate 27 0 ++ [0])).1 =
      List.replicate 27 true ++ [false] ∧
    (soRun (initialStatus CharId.rust).stackOverflow (List.replicate 27 0 ++ [0])).2.isStunned =
      true :=
  so_threshold_scenario CharId.rust (List.replicate 27 0) 0 rfl (by simp)
    (by intro t ht; rw [List.eq_of_mem_replicate ht]; decide) (by decide)

/-- Helper for C4: an effect returned by `getRandomBugEffect existing` is never
already in `existing`. -/
theorem getRandomBugEffect_not_mem {ex : List BugEffect} {i : ℕ} {e : BugEffect}
    (h : getRandomBugEffect ex i = some e) : e ∉ ex := by
  have hmem : e ∈ allBugEffects.filter (fun x => decide (x ∉ ex)) := List.get?_mem h
  simpa using (List.mem_filter.mp hmem).2

/-- Helper for C4: with an empty exclusion list the draw always succeeds. -/
theorem getRandomBugEffect_nil_isSome (i : ℕ) : ∃ e, getRandomBugEffect [] i = some e := by
  have hlt : i % 5 < 5 := Nat.mod_lt _ (by norm_num)
  have : getRandomBugEffect [] i = allBugEffects.get? (i % 5) := rfl
  rw [this, List.get?_eq_get (by simpa [allBugEffects] using hlt)]
  exact ⟨_, rfl⟩

/-- Helper for C4: `triggerBug` always establishes the invariant (a singleton
effect list with the active flag set). -/
theorem bugInv_triggerBug (i : ℕ) (b : BugState) : bugInv (triggerBug i b) := by
  obtain ⟨e, he⟩ := getRandomBugEffect_nil_isSome i
  refine ⟨?_, ?_, ?_⟩ <;> simp [triggerBug, he]

/-- Helper for C4: the already-bugged branch of `onTakeDamage` preserves the
invariant. -/
theorem bugInv_bugExtend (r2 : ℚ) (i2 : ℕ) (b : BugState) (h : bugInv b)
    (ha : b.isActive = true) : bugInv (bugExtend r2 i2 b) := by
  obtain ⟨hiff, hlen, hnd⟩ := h
  have hne : b.effects ≠ [] := by
    intro hcon
    rw [hiff.mp hcon] at ha
    exact Bool.false_ne_true ha
  unfold bugExtend
  by_cases hc : b.effects.length < 3 ∧ r2 < 3/10
  · rw [if_pos (by simpa using hc)]
    rcases hre : getRandomBugEffect b.effects i2 with _ | e
    · exact ⟨by simpa [ha] using hne, by simpa using hlen, by simpa using hnd⟩
    · have hnotmem : e ∉ b.effects := getRandomBugEffect_not_mem hre
      refine ⟨?_, ?_, ?_⟩
      · simp [ha]
      · simp only [BugState.mk.injEq]
        simp [List.length_append]
        omega
      · simpa [List.concat_eq_append] using hnd.concat hnotmem
  · rw [if_neg (by simpa using hc)]
    exact ⟨by simpa [ha] using hne, by simpa using hlen, by simpa using hnd⟩

/-- Helper for C4: `onTakeDamage` preserves the invariant. -/
theorem bugInv_onTakeDamage (r1 r2 : ℚ) (i1 i2 : ℕ) (b : BugState) (h : bugInv b) :
    bugInv (bugOnTakeDamage r1 r2 i1 i2 b) := by
  unfold bugOnTakeDamage
  by_cases hr : r1 < b.probability
  · rw [if_pos hr]
    have ha : (triggerBug i1 b).isActive = true := rfl
    rw [if_pos ha]
    exact bugInv_bugExtend r2 i2 _ (bugInv_triggerBug i1 b) ha
  · rw [if_neg hr]
    by_cases ha : b.isActive = true
    · rw [if_pos ha]
      exact bugInv_bugExtend r2 i2 b h ha
    · rw [if_neg ha]
      exact h

/-- Helper for C4: the per-frame `update` preserves the invariant. -/
theorem bugInv_statusUpdate (delta : ℚ) (st : FighterStatus) (h : bugInv st.bug) :
    bugInv (statusUpdate delta st).bug := by
  obtain ⟨hiff, hlen, hnd⟩ := h
  unfold statusUpdate
  by_cases ha : st.bug.isActive = true
  · have hne : st.bug.effects ≠ [] := by
      intro hcon
      rw [hiff.mp hcon] at ha
      exact Bool.false_ne_true ha
    by_cases hd : st.bug.duration - delta ≤ 0
    · simp [ha, hd, bugInv]
    · simp only [ha, if_true, hd, if_false]
      exact ⟨by simpa [ha] using hne, by simpa using hlen, by simpa using hnd⟩
  · simp only [ha, if_false]
    exact ⟨hiff, hlen, hnd⟩

/-- Helper for C4: `clearEffects` re-establishes the invariant. -/
theorem bugInv_clearEffects (st : FighterStatus) : bugInv (clearEffects st).bug := by
  simp [clearEffects, bugInv]

/-- Helper for C4: registration establishes the invariant. -/
theorem bugInv_initial (cid : CharId) : bugInv (initialStatus cid).bug := by
  simp [initialStatus, bugInv]

/-- Helper for C4: the invariant is preserved by any operation sequence. -/
theorem bugInv_preserved (ops : List StatusOp) : ∀ st : FighterStatus,
    bugInv st.bug → bugInv (applyStatusOps ops st).bug := by
  induction ops with
  | nil => intro st h; exact h
  | cons op ops ih =>
    intro st h
    show bugInv (applyStatusOps ops (applyStatusOp op st)).bug
    refine ih _ ?_
    cases op with
    | takeDamage r1 r2 i1 i2 => exact bugInv_onTakeDamage r1 r2 i1 i2 st.bug h
    | update delta => exact bugInv_statusUpdate delta st h
    | clear => exact bugInv_clearEffects st

/-- C4: for every registered fighter and every sequence of `onTakeDamage` /
`update` / `clearEffects` operations (with arbitrary random draws), the bug
state satisfies: the effects list is empty iff `isActive` is false, has at
most 3 entries, and contains no duplicate effect kind. -/
theorem bug_state_invariant (cid : CharId) (ops : List StatusOp) :
    bugInv (applyStatusOps ops (initialStatus cid)).bug :=
  bugInv_preserved ops (initialStatus cid) (bugInv_initial cid)

/-- The C5 scenario: fighters A = 0, B = 1, V = 2 registered, then
`recordDamage(A,V,40)` at `t1`, `recordDamage(B,V,10)` at `t2`,
`recordKO(V,A)` at `t3`. -/
def koScenario (t1 t2 t3 : ℤ) : ScoreSystem :=
  recordKO 2 (some 0) t3 (recordDamage 1 2 10 t2 (recordDamage 0 2 40 t1
    (registerScore 2 (registerScore 1 (registerScore 0 emptyScoreSystem)))))

/-- C5: within the damage-expiry window, the KO scenario awards A exactly
100 push points, B exactly `10 × 0.3 = 3` commit points, no commit credit to
the killer A, and leaves V's damage ledger empty. -/
theorem recordKO_attribution (t1 t2 t3 : ℤ)
    (h21 : t2 - t1 < DAMAGE_EXPIRE_TIME)
    (h31 : t3 - t1 < DAMAGE_EXPIRE_TIME)
    (h32 : t3 - t2 < DAMAGE_EXPIRE_TIME) :
    (getScoreBreakdown 0 (koScenario t1 t2 t3)).push = 100 ∧
    (getScoreBreakdown 1 (koScenario t1 t2 t3)).commit = 3 ∧
    (getScoreBreakdown 0 (koScenario t1 t2 t3)).commit = 0 ∧
    (koScenario t1 t2 t3).damageHistory 2 = some [] := by
  have h11 : t1 - t1 < DAMAGE_EXPIRE_TIME := by
    simp [DAMAGE_EXPIRE_TIME]
  have hD : (0:ℤ) < DAMAGE_EXPIRE_TIME := by
    simp [DAMAGE_EXPIRE_TIME]
  simp [koScenario, recordKO, koStep, koContribution, koDamagers, recordDamage, registerScore,
    cleanExpiredRecords, emptyScoreSystem,
    setScore, setHistory, insertUnique, getScoreBreakdown, h11, h21, h31, h32, hD,
    List.filter_cons, List.filter_nil, List.foldl_cons, List.foldl_nil,
    PUSH_POINTS, STAGE_MULTIPLIER, COMMIT_MULTIPLIER]
  norm_num

/-- Witness for C5 with all three events at time 0. -/
theorem recordKO_attribution_witness :
    (getScoreBreakdown 0 (koScenario 0 0 0)).push = 100 ∧
    (getScoreBreakdown 1 (koScenario 0 0 0)).commit = 3 ∧
    (getScoreBreakdown 0 (koScenario 0 0 0)).commit = 0 ∧
    (koScenario 0 0 0).damageHistory 2 = some [] :=
  recordKO_attribution 0 0 0 (by decide) (by decide) (by decide)

/-- The total-score formula applied to one entry of the `scores` map. -/
def totalOf : Option ScoreBreakdown → ℤ
  | none => 0
  | some sc => ⌊sc.push + sc.stage * (3/10) + sc.commit * (1/5) + sc.bonus⌋

theorem getTotalScore_eq_totalOf (f : ℕ) (sys : ScoreSystem) :
    getTotalScore f sys = totalOf (sys.scores f) := by
  unfold getTotalScore totalOf
  cases sys.scores f <;> rfl

/-- Componentwise order on `scores` entries; `none` only relates to `none`
(no operation in the monotonicity claim creates or deletes entries). -/
def obLe : Option ScoreBreakdown → Option ScoreBreakdown → Prop
  | none, none => True
  | some a, some b => a.push ≤ b.push ∧ a.stage ≤ b.stage ∧ a.commit ≤ b.commit ∧ a.bonus ≤ b.bonus
  | _, _ => False

theorem obLe_refl (o : Option ScoreBreakdown) : obLe o o := by
  cases o <;> simp [obLe]

theorem obLe_trans {a b c : Option ScoreBreakdown} (h1 : obLe a b) (h2 : obLe b c) :
    obLe a c := by
  cases a <;> cases b <;> cases c <;> simp [obLe] at h1 h2 ⊢
  exact ⟨le_trans h1.1 h2.1, le_trans h1.2.1 h2.2.1, le_trans h1.2.2.1 h2.2.2.1,
    le_trans h1.2.2.2 h2.2.2.2⟩

theorem totalOf_mono {a b : Option ScoreBreakdown} (h : obLe a b) : totalOf a ≤ totalOf b := by
  cases a <;> cases b <;> simp [obLe] at h <;> simp [totalOf]
  obtain ⟨h1, h2, h3, h4⟩ := h
  apply Int.floor_le_floor
  have m2 := mul_le_mul_of_nonneg_right h2 (show (0:ℚ) ≤ 3/10 by norm_num)
  have m3 := mul_le_mul_of_nonneg_right h3 (show (0:ℚ) ≤ 1/5 by norm_num)
  linarith

/-- Pointwise `obLe` on the whole `scores` map. -/
def scoresLe (m m' : ℕ → Option ScoreBreakdown) : Prop := ∀ f, obLe (m f) (m' f)

theorem scoresLe_setScore {m : ℕ → Option ScoreBreakdown} {k : ℕ} {sc sc' : ScoreBreakdown}
    (hm : m k = some sc) (h : obLe (some sc) (some sc')) : scoresLe m (setScore m k sc') := by
  intro f
  unfold setScore
  by_cases hf : f = k
  · rw [if_pos hf, hf, hm]
    exact h
  · rw [if_neg hf]
    exact obLe_refl _

theorem scoresLe_foldl (step : (ℕ → Option ScoreBreakdown) → ℕ → (ℕ → Option ScoreBreakdown))
    (hstep : ∀ m d, scoresLe m (step m d)) :
    ∀ (ds : List ℕ) (m : ℕ → Option ScoreBreakdown), scoresLe m (ds.foldl step m) := by
  intro ds
  induction ds with
  | nil => intro m f; exact obLe_refl _
  | cons d ds ih => intro m f; exact obLe_trans (hstep m d f) (ih (step m d) f)

theorem koContribution_nonneg {history : List DamageRecord} {now : ℤ} {d : ℕ}
    (hh : ∀ r ∈ history, 0 ≤ r.amount) : 0 ≤ koContribution history now d := by
  apply List.sum_nonneg
  intro x hx
  obtain ⟨r, hr, rfl⟩ := List.mem_map.mp hx
  exact hh r (List.mem_filter.mp hr).1

theorem scoresLe_koStep {history : List DamageRecord} {now : ℤ}
    (hh : ∀ r ∈ history, 0 ≤ r.amount) (m : ℕ → Option ScoreBreakdown) (d : ℕ) :
    scoresLe m (koStep history now m d) := by
  unfold koStep
  cases hmd : m d with
  | none => intro f; exact obLe_refl _
  | some sc =>
    refine scoresLe_setScore hmd ?_
    refine ⟨le_refl _, le_refl _, ?_, le_refl _⟩
    have : 0 ≤ koContribution history now d := koContribution_nonneg hh
    have hmul : 0 ≤ koContribution history now d * COMMIT_MULTIPLIER :=
      mul_nonneg this (by norm_num [COMMIT_MULTIPLIER])
    exact le_add_of_nonneg_right hmul

/-- `recordDamage` only touches the attacker's stage points in `scores`. -/
theorem recordDamage_scores (a v : ℕ) (amount : ℚ) (now : ℤ) (sys : ScoreSystem) :
    (recordDamage a v amount now sys).scores =
      match sys.scores a with
      | some sc => setScore sys.scores a { sc with stage := sc.stage + amount * STAGE_MULTIPLIER }
      | none => sys.scores := by
  unfold recordDamage cleanExpiredRecords
  cases sys.scores a <;> rfl

theorem scoresLe_recordDamage (a v : ℕ) {amount : ℚ} (now : ℤ) (sys : ScoreSystem)
    (ha : 0 ≤ amount) : scoresLe sys.scores (recordDamage a v amount now sys).scores := by
  rw [recordDamage_scores]
  cases hsc : sys.scores a with
  | none => intro f; exact obLe_refl _
  | some sc =>
    refine scoresLe_setScore hsc ⟨le_refl _, ?_, le_refl _, le_refl _⟩
    have : 0 ≤ amount * STAGE_MULTIPLIER := mul_nonneg ha (by norm_num [STAGE_MULTIPLIER])
    exact le_add_of_nonneg_right this

theorem scoresLe_addComboBonus (f : ℕ) {c : ℚ} (sys : ScoreSystem) (hc : 0 ≤ c) :
    scoresLe sys.scores (addComboBonus f c sys).scores := by
  unfold addComboBonus
  cases hsc : sys.scores f with
  | none => intro g; exact obLe_refl _
  | some sc =>
    refine scoresLe_setScore hsc ⟨le_refl _, le_refl _, le_refl _, ?_⟩
    have : 0 ≤ COMBO_BONUS * c := mul_nonneg (by norm_num [COMBO_BONUS]) hc
    exact le_add_of_nonneg_right this

theorem scoresLe_recordKO (v : ℕ) (k : Option ℕ) (now : ℤ) (sys : ScoreSystem)
    (hh : historyNonneg sys) : scoresLe sys.scores (recordKO v k now sys).scores := by
  unfold recordKO
  have main : ∀ sys1 : ScoreSystem, sys1.damageHistory = sys.damageHistory →
      scoresLe sys.scores sys1.scores →
      scoresLe sys.scores
        ((koDamagers ((sys1.damageHistory v).getD []) now k).foldl
          (koStep ((sys1.damageHistory v).getD []) now) sys1.scores) := by
    intro sys1 hhist hle f
    refine obLe_trans (hle f) ?_
    have hnn : ∀ r ∈ (sys1.damageHistory v).getD [], 0 ≤ r.amount := by
      rw [hhist]
      exact hh v
    exact scoresLe_foldl _ (scoresLe_koStep hnn) _ _ f
  cases k with
  | none => exact main sys rfl (fun f => obLe_refl _)
  | some kk =>
    cases hsc : sys.scores kk with
    | none =>
      simp only [hsc]
      exact main sys rfl (fun f => obLe_refl _)
    | some sc =>
      simp only [hsc]
      have hp : (0:ℚ) ≤ PUSH_POINTS := by norm_num [PUSH_POINTS]
      exact main ⟨setScore sys.scores kk { sc with push := sc.push + PUSH_POINTS },
          sys.damageHistory⟩ rfl
        (scoresLe_setScore hsc ⟨le_add_of_nonneg_right hp, le_refl _, le_refl _, le_refl _⟩)

/-- Helper lemmas about `setHistory`. -/
theorem setHistory_same (m : ℕ → Option (List DamageRecord)) (k : ℕ) (v : List DamageRecord) :
    setHistory m k v k = some v := by
  simp [setHistory]

theorem setHistory_setHistory (m : ℕ → Option (List DamageRecord)) (k : ℕ)
    (v w : List DamageRecord) : setHistory (setHistory m k v) k w = setHistory m k w := by
  funext n
  by_cases h : n = k <;> simp [setHistory, h]

/-- `recordDamage` rewrites only the victim's ledger: the old entries plus the
new record, pruned of expired entries. -/
theorem recordDamage_history (a v : ℕ) (amount : ℚ) (now : ℤ) (sys : ScoreSystem) :
    (recordDamage a v amount now sys).damageHistory =
      setHistory sys.damageHistory v
        ((((sys.damageHistory v).getD []) ++ [DamageRecord.mk a amount now]).filter
          (fun r => decide (now - r.timestamp < DAMAGE_EXPIRE_TIME))) := by
  unfold recordDamage cleanExpiredRecords
  cases sys.scores a <;> simp [setHistory_same, setHistory_setHistory]

theorem recordKO_history (v : ℕ) (k : Option ℕ) (now : ℤ) (sys : ScoreSystem) :
    (recordKO v k now sys).damageHistory = setHistory sys.damageHistory v [] := by
  cases k with
  | none => rfl
  | some kk =>
    cases hsc : sys.scores kk with
    | none => simp [recordKO, hsc]
    | some sc => simp [recordKO, hsc]

theorem addComboBonus_history (f : ℕ) (c : ℚ) (sys : ScoreSystem) :
    (addComboBonus f c sys).damageHistory = sys.damageHistory := by
  unfold addComboBonus
  cases sys.scores f <;> rfl

theorem historyNonneg_recordDamage {sys : ScoreSystem} (h : historyNonneg sys)
    {amount : ℚ} (ha : 0 ≤ amount) (a v : ℕ) (now : ℤ) :
    historyNonneg (recordDamage a v amount now sys) := by
  intro v' r hr
  rw [recordDamage_history] at hr
  unfold setHistory at hr
  by_cases hv : v' = v
  · rw [if_pos hv] at hr
    simp only [Option.getD_some] at hr
    have hmem := (List.mem_filter.mp hr).1
    rcases List.mem_append.mp hmem with hold | hnew
    · exact h v r hold
    · rw [List.mem_singleton.mp hnew]
      exact ha
  · rw [if_neg hv] at hr
    exact h v' r hr

theorem historyNonneg_recordKO {sys : ScoreSystem} (h : historyNonneg sys)
    (v : ℕ) (k : Option ℕ) (now : ℤ) : historyNonneg (recordKO v k now sys) := by
  intro v' r hr
  rw [recordKO_history] at hr
  unfold setHistory at hr
  by_cases hv : v' = v
  · rw [if_pos hv] at hr
    simp at hr
  · rw [if_neg hv] at hr
    exact h v' r hr

theorem historyNonneg_addComboBonus {sys : ScoreSystem} (h : historyNonneg sys)
    (f : ℕ) (c : ℚ) : historyNonneg (addComboBonus f c sys) := by
  intro v' r hr
  rw [addComboBonus_history] at hr
  exact h v' r hr

/-- C6: `getTotalScore` is monotonically non-decreasing over any sequence of
`recordDamage` / `recordKO` / `addComboBonus` operations with non-negative
damage amounts and combo counts, starting from any state whose ledgers hold
only non-negative amounts (registration yields such a state: all ledgers are
empty). -/
theorem totalScore_monotone (ops : List ScoreOp) :
    ∀ sys : ScoreSystem, (∀ op ∈ ops, scoreOpNonneg op) → historyNonneg sys →
      ∀ f, getTotalScore f sys ≤ getTotalScore f (applyScoreOps ops sys) := by
  induction ops with
  | nil => intro sys _ _ f; exact le_refl _
  | cons op ops ih =>
    intro sys hops hh f
    have hop : scoreOpNonneg op := hops op (List.mem_cons_self op ops)
    have hstep : scoresLe sys.scores (applyScoreOp op sys).scores := by
      cases op with
      | damage a v amount now => exact scoresLe_recordDamage a v now sys hop
      | ko v k now => exact scoresLe_recordKO v k now sys hh
      | combo g c => exact scoresLe_addComboBonus g sys hop
    have hh' : historyNonneg (applyScoreOp op sys) := by
      cases op with
      | damage a v amount now => exact historyNonneg_recordDamage hh hop a v now
      | ko v k now => exact historyNonneg_recordKO hh v k now
      | combo g c => exact historyNonneg_addComboBonus hh g c
    have h1 : getTotalScore f sys ≤ getTotalScore f (applyScoreOp op sys) := by
      rw [getTotalScore_eq_totalOf, getTotalScore_eq_totalOf]
      exact totalOf_mono (hstep f)
    have h2 := ih (applyScoreOp op sys) (fun o ho => hops o (List.mem_cons_of_mem op ho)) hh' f
    exact le_trans h1 h2

/-- Witness for C6: one damage event on an unregistered pair, from the empty
system. -/
theorem totalScore_monotone_witness :
    getTotalScore 0 emptyScoreSystem ≤
      getTotalScore 0 (applyScoreOps [ScoreOp.damage 0 1 5 0] emptyScoreSystem) :=
  totalScore_monotone [ScoreOp.damage 0 1 5 0] emptyScoreSystem
    (by intro op hop; rw [List.mem_singleton.mp hop]; norm_num [scoreOpNonneg])
    (by intro v r hr; simp [emptyScoreSystem] at hr) 0

/-- A concrete vulnerable fighter at 50% damage (for the takeDamage
scenario). -/
def fighterAt50 : Fighter :=
  { x := 0, y := 0, velX := 0, velY := 0, damage := 50, stocks := 3
    facingRight := true, isGrounded := true, isAttacking := false, isUsingSpecial := false
    isHitstun := false, isInvincible := false, jumpsRemaining := 2
    currentAttackType := AttackType.light
    specialCooldown := 0, attackCooldown := 0, subAbilityCooldown := 0
    hitTargets := [], activeBugEffects := [], skillDelayMultiplier := 1
    hitstunDuration := 0, attackDuration := 0 }

/-- Counterexample for C1: `takeDamage(10, -100, -50)` at 50% damage does NOT
set the velocity to `(-150, -75)`. The accumulator is incremented to 60 before
the knockback multiplier is computed, so the multiplier is `1.6`, not `1.5`,
and the velocity is `(-160, -80)`. -/
theorem takeDamage_scenario_counterexample :
    fighterAt50.isInvincible = false ∧ fighterAt50.damage = 50 ∧
    ¬ (((fighterAt50.takeDamage 10 (-100) (-50)).velX,
        (fighterAt50.takeDamage 10 (-100) (-50)).velY) = (-150, -75)) := by
  refine ⟨rfl, rfl, ?_⟩
  simp [fighterAt50, Fighter.takeDamage]
  norm_num

/-- C1 (amended): `takeDamage(10, -100, -50)` on a non-invincible fighter at
50% damage raises the accumulator to 60, sets the hitstun flag, scales the
knockback by `1 + 60/100 = 1.6` giving velocity `(-160, -80)`, and schedules
hitstun of `min(100 + 60×2, 500) = 220` time units. -/
theorem takeDamage_scenario (f : Fighter) (hinv : f.isInvincible = false)
    (hdmg : f.damage = 50) :
    (f.takeDamage 10 (-100) (-50)).damage = 60 ∧
    (f.takeDamage 10 (-100) (-50)).isHitstun = true ∧
    (f.takeDamage 10 (-100) (-50)).velX = -160 ∧
    (f.takeDamage 10 (-100) (-50)).velY = -80 ∧
    (f.takeDamage 10 (-100) (-50)).hitstunDuration = 220 := by
  simp [Fighter.takeDamage, hinv, hdmg]
  norm_num

/-- Witness for C1 (amended) at the concrete fighter. -/
theorem takeDamage_scenario_witness :
    (fighterAt50.takeDamage 10 (-100) (-50)).damage = 60 ∧
    (fighterAt50.takeDamage 10 (-100) (-50)).isHitstun = true ∧
    (fighterAt50.takeDamage 10 (-100) (-50)).velX = -160 ∧
    (fighterAt50.takeDamage 10 (-100) (-50)).velY = -80 ∧
    (fighterAt50.takeDamage 10 (-100) (-50)).hitstunDuration = 220 :=
  takeDamage_scenario fighterAt50 rfl rfl

/-- C7: `takeDamage` is a silent no-op (identical state, no error signal) for
every argument while invincible, and `attack` is a silent no-op while the
attack cooldown is positive or the fighter is in hitstun. -/
theorem silent_precondition_noop (f : Fighter) (amount kx ky : ℚ) (ty : AttackType) :
    (f.isInvincible = true → f.takeDamage amount kx ky = f) ∧
    (f.isHitstun = true ∨ f.attackCooldown > 0 → f.attack ty = f) := by
  constructor
  · intro h
    simp [Fighter.takeDamage, h]
  · intro h
    unfold Fighter.attack
    rw [if_pos]
    rcases h with h | h
    · exact Or.inl (by simp [h])
    · exact Or.inr h

/-- Witness for C7: an invincible fighter and a cooling-down fighter. -/
theorem silent_precondition_noop_witness :
    ({ fighterAt50 with isInvincible := true } : Fighter).takeDamage 7 (-3) 4 =
      { fighterAt50 with isInvincible := true } ∧
    ({ fighterAt50 with attackCooldown := 125 } : Fighter).attack AttackType.heavy =
      { fighterAt50 with attackCooldown := 125 } :=
  ⟨(silent_precondition_noop { fighterAt50 with isInvincible := true } 7 (-3) 4
      AttackType.heavy).1 rfl,
   (silent_precondition_noop { fighterAt50 with attackCooldown := 125 } 7 (-3) 4
      AttackType.heavy).2 (Or.inr (by norm_num))⟩

/-- C10: `respawn(x, y)` resets position, velocity, the damage accumulator,
the hitstun / attacking / using-special flags, the per-swing hit-set and the
active bug effects, while leaving the three cooldown timers, the stocks count
and the invincibility flag unchanged. -/
theorem respawn_resets (f : Fighter) (x y : ℚ) :
    (f.respawn x y).x = x ∧ (f.respawn x y).y = y ∧
    (f.respawn x y).velX = 0 ∧ (f.respawn x y).velY = 0 ∧
    (f.respawn x y).damage = 0 ∧
    (f.respawn x y).isHitstun = false ∧
    (f.respawn x y).isAttacking = false ∧
    (f.respawn x y).isUsingSpecial = false ∧
    (f.respawn x y).hitTargets = [] ∧
    (f.respawn x y).activeBugEffects = [] ∧
    (f.respawn x y).attackCooldown = f.attackCooldown ∧
    (f.respawn x y).specialCooldown = f.specialCooldown ∧
    (f.respawn x y).subAbilityCooldown = f.subAbilityCooldown ∧
    (f.respawn x y).stocks = f.stocks ∧
    (f.respawn x y).isInvincible = f.isInvincible := by
  simp [Fighter.respawn]

/-- Helper for C8: the head of a valid oracle stream (or the default 0) lies
in `[0, 1)`. -/
theorem validRand_headD {rs : List ℚ} (h : validRand rs) : 0 ≤ rs.headD 0 ∧ rs.headD 0 < 1 := by
  cases rs with
  | nil => norm_num
  | cons r rs => exact h r (List.mem_cons_self r rs)

/-- Helper for C8: validity passes to the tail of the stream. -/
theorem validRand_tail {rs : List ℚ} (h : validRand rs) : validRand rs.tail := by
  intro r hr
  exact h r (List.mem_of_mem_tail hr)

/-- C8 (amended): facing a mid-attack target within the 120-unit proximity
threshold, an AI with `dodgeSkill = 1` selects `defend` on every decision tick
for every valid draw stream; with `dodgeSkill = 0` the dodge gate
(`shouldDodge`) never succeeds for any valid draw stream — though `defend` can
still be selected by the in-range aggression branch. -/
theorem dodge_skill_gate (sk : AISkill) (p : AIPersonality)
    (myDamage sc sr : ℚ) (su sg : Bool) (tgt : TargetInfo) (dist : ℚ) (rs : List ℚ)
    (hatk : tgt.isAttacking = true) (hdist : dist ≤ 120) (hrs : validRand rs) :
    (sk.dodgeSkill = 1 →
      decideAction sk p myDamage sc sr su sg tgt dist rs = AIAction.defend) ∧
    (sk.dodgeSkill = 0 →
      ∀ rs2 : List ℚ, validRand rs2 → (shouldDodge sk tgt dist rs2).1 = false) := by
  constructor
  · intro h1
    have hv := validRand_headD (validRand_tail hrs)
    have hdodge : (shouldDodge sk tgt dist (drawRand rs).2).1 = true := by
      unfold shouldDodge drawRand
      rw [if_neg (by simp [hatk]), if_neg (not_lt.mpr hdist)]
      simp only [decide_eq_true_eq]
      rw [h1]
      exact hv.2
    unfold decideAction
    simp [hdodge]
  · intro h0 rs2 hrs2
    have hv := validRand_headD hrs2
    unfold shouldDodge
    by_cases ha : tgt.isAttacking = false
    · rw [if_pos ha]
    · rw [if_neg ha]
      by_cases hd : dist > 120
      · rw [if_pos hd]
      · rw [if_neg hd]
        unfold drawRand
        simp only [decide_eq_false_iff_not]
        rw [h0]
        exact not_lt.mpr hv.1

/-- A skill vector with `dodgeSkill = 0` (and adaptation and edgeguard skill
below their gates). -/
def skDodgeZero : AISkill := ⟨1/2, 1/2, 3/10, 1/2, 0, 1/10, 1/2, 1/2, 1/10⟩

def aggressionHalf : AIPersonality := ⟨1/2, 3/10⟩

def attackingTarget : TargetInfo := ⟨true, 640, 0, 0⟩

/-- Counterexample for C8: with `dodgeSkill = 0`, an adjacent attacking target
and a valid draw stream, the decision tick still selects `defend` — through
the in-range defend/wait branch (the roll 0.9 fails the aggression check), not
through the dodge gate. So "never selects defend" is false. -/
theorem dodge_zero_defend_counterexample :
    skDodgeZero.dodgeSkill = 0 ∧ attackingTarget.isAttacking = true ∧ ((10:ℚ) ≤ 120) ∧
    validRand [9/10] ∧
    decideAction skDodgeZero aggressionHalf 0 1 100 false true attackingTarget 10 [9/10] =
      AIAction.defend := by
  refine ⟨rfl, rfl, by norm_num, ?_, ?_⟩
  · intro r hr
    rw [List.mem_singleton.mp hr]
    norm_num
  · norm_num [decideAction, drawRand, shouldDodge, shouldUseSpecial, shouldEdgeguard,
      adaptOverride, skDodgeZero, aggressionHalf, attackingTarget]

/-- Witness for C8 at `dodgeSkill = 1` (always defend) and `dodgeSkill = 0`
(dodge gate closed). -/
theorem dodge_skill_gate_witness :
    decideAction { skDodgeZero with dodgeSkill := 1 } aggressionHalf 0 1 100 false true
      attackingTarget 10 [9/10] = AIAction.defend ∧
    (shouldDodge skDodgeZero attackingTarget 10 [9/10]).1 = false :=
  ⟨(dodge_skill_gate { skDodgeZero with dodgeSkill := 1 } aggressionHalf 0 1 100 false true
      attackingTarget 10 [9/10] rfl (by norm_num)
      (by intro r hr; rw [List.mem_singleton.mp hr]; norm_num)).1 rfl,
   (dodge_skill_gate skDodgeZero aggressionHalf 0 1 100 false true
      attackingTarget 10 [9/10] rfl (by norm_num)
      (by intro r hr; rw [List.mem_singleton.mp hr]; norm_num)).2 rfl [9/10]
      (by intro r hr; rw [List.mem_singleton.mp hr]; norm_num)⟩

/-- Counterexample for C9: `onAttack` for a fighter never registered returns
`true` (the attack is permitted), not the `false`/zero/empty default named by
the claim. -/
theorem unregistered_onAttack_counterexample :
    emptyStatusSystem.fighterStates 0 = none ∧
    (sysOnAttack emptyStatusSystem 0 0).1 ≠ false := by
  constructor
  · rfl
  · simp [sysOnAttack, emptyStatusSystem]

/-- C9 (amended): for a fighter never registered, all lookups return the safe
defaults — `isStunned`/`isBugged` false, `getBugEffects` empty,
`getStackOverflowProgress` 0, `getTotalScore` 0, `getScoreBreakdown` all
zero — while `onAttack` returns `true` (the permissive default that allows the
attack) and leaves the system state untouched; no per-fighter entry is created
or mutated by any of these calls (the reads are pure, and `onAttack` returns
the map unchanged). -/
theorem unregistered_safe_defaults (ssys : StatusSystem) (scs : ScoreSystem) (f : ℕ) (t : ℤ)
    (h1 : ssys.fighterStates f = none) (h2 : scs.scores f = none) :
    sysOnAttack ssys f t = (true, ssys) ∧
    sysIsStunned ssys f = false ∧
    sysIsBugged ssys f = false ∧
    sysGetBugEffects ssys f = [] ∧
    sysGetStackOverflowProgress ssys f = 0 ∧
    getTotalScore f scs = 0 ∧
    getScoreBreakdown f scs = ⟨0, 0, 0, 0⟩ := by
  unfold sysOnAttack sysIsStunned sysIsBugged sysGetBugEffects sysGetStackOverflowProgress
    getTotalScore getScoreBreakdown
  simp [h1, h2]

/-- Witness for C9 (amended) on the empty systems. -/
theorem unregistered_safe_defaults_witness :
    sysOnAttack emptyStatusSystem 0 0 = (true, emptyStatusSystem) ∧
    sysIsStunned emptyStatusSystem 0 = false ∧
    sysIsBugged emptyStatusSystem 0 = false ∧
    sysGetBugEffects emptyStatusSystem 0 = [] ∧
    sysGetStackOverflowProgress emptyStatusSystem 0 = 0 ∧
    getTotalScore 0 emptyScoreSystem = 0 ∧
    getScoreBreakdown 0 emptyScoreSystem = ⟨0, 0, 0, 0⟩ :=
  unregistered_safe_defaults emptyStatusSystem emptyScoreSystem 0 0 rfl rfl

end Progmy
